import Mathlib

/-!
Verification of the Detector_FakeNews repository.

The repository is a TypeScript fake-news checker:
* `src/supabase/functions/fact-check/index.ts` — a Deno edge function
  (`hashText`, `factCheckWithGemini`, and the `serve` request handler with a
  Supabase-backed cache).
* `src/src/services/fakeNewsDetector.ts` — the browser-side service
  (`sanitizeClientInput`, `analyzeText` and its response validation).
* `src/unnamed/part_001` — a variant of the client service with a purely local
  analyzer (`analyzeTextLocally`).
* `src/unnamed/part_002` — the SQL schema of the `fact_checks` cache table.

This file is a shallow embedding of those functions: strings are lists of
characters, JavaScript numbers on the relevant code paths are rationals,
thrown exceptions are `Except.error`, and the external world (environment
variables, the Gemini HTTP call, the Supabase store) is passed in explicitly.
-/

set_option maxRecDepth 40000

namespace FakeNews

/-! ## JavaScript character classes -/

/-- The character set matched by the JavaScript regexp class `\s`
(whitespace, as used by `replace(/\s+/g, ' ')` and by `String.prototype.trim`). -/
def wsChars : List Char :=
  [' ', '\t', '\n', '\r', '\x0b', '\x0c', ' ', ' ',
   ' ', ' ', ' ', ' ', ' ', ' ', ' ',
   ' ', ' ', ' ', ' ', ' ', ' ', ' ',
   ' ', '　', '﻿']

/-- `isWs c` is true exactly when `c` is JavaScript whitespace. -/
def isWs (c : Char) : Bool := wsChars.contains c

/-- The characters stripped by `sanitizeClientInput`:
`text.replace(/[<>\"'&]/g, '')`. -/
def isForbidden (c : Char) : Bool :=
  c = '<' || c = '>' || c = '"' || c = '\'' || c = '&'

/-- JavaScript `\w` (word character), the basis of the `\b` boundary used in
the regexps of `analyzeTextLocally`: ASCII letters, digits and underscore. -/
def isWordChar (c : Char) : Bool :=
  ('a' ≤ c && c ≤ 'z') || ('A' ≤ c && c ≤ 'Z') || ('0' ≤ c && c ≤ '9') || c = '_'

/-- ASCII digit, the JavaScript regexp class `\d`. -/
def isDigit (c : Char) : Bool := '0' ≤ c && c ≤ '9'

/-- `String.prototype.toLowerCase`, restricted to the ASCII and Latin-1
letters that occur in this code base (JavaScript lower-cases the Latin-1
uppercase block `À`–`Þ` except `×` by adding 32, like ASCII). -/
def jsToLower (c : Char) : Char :=
  if 'A' ≤ c && c ≤ 'Z' then Char.ofNat (c.toNat + 32)
  else if 0xC0 ≤ c.toNat && c.toNat ≤ 0xDE && c.toNat ≠ 0xD7 then Char.ofNat (c.toNat + 32)
  else c

/-- `toLowerCase` on a whole string. -/
def lowerStr (s : String) : String := String.mk (s.data.map jsToLower)

/-! ## String helpers shared by the embedded functions -/

/-- `stripForbidden` is `replace(/[<>\"'&]/g, '')`. -/
def stripForbidden (l : List Char) : List Char := l.filter (fun c => !isForbidden c)

/-- `collapseWs` is `replace(/\s+/g, ' ')`: every maximal run of whitespace
becomes a single space (all but the last character of a run are dropped, the
last one becomes `' '`). -/
def collapseWs : List Char → List Char
  | [] => []
  | [c] => [if isWs c then ' ' else c]
  | c :: d :: cs =>
    if isWs c && isWs d then collapseWs (d :: cs)
    else (if isWs c then ' ' else c) :: collapseWs (d :: cs)

/-- `String.prototype.trim`: drop whitespace from both ends. -/
def trimWs (l : List Char) : List Char :=
  ((l.dropWhile isWs).reverse.dropWhile isWs).reverse

/-- `trim` on a whole string. -/
def jsTrim (s : String) : String := String.mk (trimWs s.data)

/-- `substring(0, n)` (modelled on characters). -/
def jsSubstring (s : String) (n : Nat) : String := String.mk (s.data.take n)

/-- `String.prototype.includes`: substring containment. -/
def containsSub (hay needle : String) : Bool :=
  (List.range (hay.data.length + 1)).any fun i => needle.data.isPrefixOf (hay.data.drop i)

/-! ## `hashText` (src/supabase/functions/fact-check/index.ts)

```ts
function hashText(text: string): string {
  let hash = 0;
  for (let i = 0; i < text.length; i++) {
    const char = text.charCodeAt(i);
    hash = ((hash << 5) - hash) + char;
    hash = hash & hash; // Convert to 32bit integer
  }
  return Math.abs(hash).toString();
}
```
-/

/-- JavaScript `ToInt32`: reduce an integer into `[-2^31, 2^31)`. -/
def toInt32 (x : Int) : Int := (x + 2 ^ 31) % 2 ^ 32 - 2 ^ 31

/-- The UTF-16 code units of a character, as read by `charCodeAt`. -/
def utf16Units (c : Char) : List Nat :=
  let v := c.toNat
  if v < 0x10000 then [v]
  else [0xD800 + (v - 0x10000) / 0x400, 0xDC00 + (v - 0x10000) % 0x400]

/-- The UTF-16 code units of a string. -/
def strUtf16 (s : String) : List Nat := (s.data.map utf16Units).flatten

/-- One iteration of the `hashText` loop: `hash = ((hash << 5) - hash) + char`
followed by `hash = hash & hash` (both 32-bit operations). -/
def hashStep (h : Int) (code : Nat) : Int := toInt32 (toInt32 (h * 32) - h + code)

/-- `hashText`: fold the rolling hash over the code units, then
`Math.abs(hash).toString()`. -/
def hashText (s : String) : String :=
  toString ((strUtf16 s).foldl hashStep 0).natAbs

/-! ## `encodeURIComponent`

Percent-encodes every UTF-8 byte except the unreserved characters
`A–Z a–z 0–9 - _ . ! ~ * ' ( )`. -/

/-- Characters left unescaped by `encodeURIComponent`. -/
def uriUnreserved (c : Char) : Bool :=
  ('A' ≤ c && c ≤ 'Z') || ('a' ≤ c && c ≤ 'z') || ('0' ≤ c && c ≤ '9') ||
  c = '-' || c = '_' || c = '.' || c = '!' || c = '~' || c = '*' ||
  c = '\'' || c = '(' || c = ')'

/-- The UTF-8 bytes of a character. -/
def utf8Bytes (c : Char) : List Nat :=
  let v := c.toNat
  if v < 0x80 then [v]
  else if v < 0x800 then [0xC0 + v / 0x40, 0x80 + v % 0x40]
  else if v < 0x10000 then [0xE0 + v / 0x1000, 0x80 + v / 0x40 % 0x40, 0x80 + v % 0x40]
  else [0xF0 + v / 0x40000, 0x80 + v / 0x1000 % 0x40, 0x80 + v / 0x40 % 0x40, 0x80 + v % 0x40]

/-- Uppercase hexadecimal digit. -/
def hexDigit (n : Nat) : Char :=
  if n < 10 then Char.ofNat ('0'.toNat + n) else Char.ofNat ('A'.toNat + n - 10)

/-- Percent-encoding of one byte. -/
def pctEncode (b : Nat) : List Char := ['%', hexDigit (b / 16), hexDigit (b % 16)]

/-- `encodeURIComponent`. -/
def encodeURIComponent (s : String) : String :=
  String.mk ((s.data.map fun c =>
    if uriUnreserved c then [c] else (utf8Bytes c).map pctEncode |>.flatten).flatten)

/-! ## `sanitizeClientInput` (src/src/services/fakeNewsDetector.ts)

```ts
function sanitizeClientInput(text: string): string {
  if (!text || typeof text !== 'string') { throw new Error('Texto inválido'); }
  return text
    .replace(/[<>\"'&]/g, '')
    .replace(/\s+/g, ' ')
    .trim()
    .substring(0, 2000);
}
```
-/

/-- The pure transformation applied by `sanitizeClientInput`:
strip forbidden characters, collapse whitespace, trim, truncate to 2000. -/
def sanitizeCore (s : String) : String :=
  String.mk ((trimWs (collapseWs (stripForbidden s.data))).take 2000)

/-- `sanitizeClientInput` with its guard: the empty string is falsy and makes
the function throw. -/
def sanitizeClientInput (s : String) : Except String String :=
  if s = "" then .error "Texto inválido" else .ok (sanitizeCore s)

/-! ## JSON values

Payloads crossing the HTTP and JSON.parse boundaries are arbitrary JSON.
JavaScript numbers are modelled as rationals. -/

/-- A JSON value. -/
inductive JsonValue where
  | null : JsonValue
  | bool (b : Bool) : JsonValue
  | num (q : ℚ) : JsonValue
  | str (s : String) : JsonValue
  | arr (elems : List JsonValue) : JsonValue
  | obj (fields : List (String × JsonValue)) : JsonValue

/-- Property access `value.key`: a field of an object, `undefined` (here
`none`) otherwise. -/
def jget : JsonValue → String → Option JsonValue
  | .obj fields, k => (fields.find? fun p => decide (p.1 = k)).map Prod.snd
  | _, _ => none

/-- JavaScript falsiness of a JSON value (`null`, `false`, `0`, `""`). -/
def jsonFalsy : JsonValue → Bool
  | .null => true
  | .bool b => !b
  | .num q => decide (q = 0)
  | .str s => decide (s = "")
  | _ => false

/-! ## `factCheckWithGemini` (src/supabase/functions/fact-check/index.ts)

The function reads `GEMINI_API_KEY`, throws when it is absent (this check sits
*before* the `try` block), and inside the `try` calls the Gemini API, parses
the response, validates/cleans the parsed object, and on any exception falls
back to a keyword-based verdict. The external world is provided through
`ExtEnv`: the key, whether the guarded block throws (fetch error, non-ok
status, missing candidate text, unparseable JSON) and with which message, and
otherwise the parsed object plus the raw response text. `ExtEnv` also carries
the outcome of the two Supabase store calls used by the `serve` handler. -/

/-- The environment of one request: Deno env vars, the Gemini call outcome,
and the Supabase store outcomes. -/
structure ExtEnv where
  apiKey : Option String
  geminiFailure : Option String
  geminiParsed : JsonValue
  geminiRaw : String
  fetchFails : Bool
  insertFails : Bool

/-- The validated verdict produced by `factCheckWithGemini` (the
`search_results` audit blob of the TS interface is carried along by the code
but never read by any response or cache-hit path, and is not modelled). -/
structure FactCheckResult where
  status : String
  confidence : ℚ
  justification : String
  sources : List JsonValue

/-- The keyword list of the catch-block fallback. -/
def suspiciousWords : List String :=
  ["milagre", "cura instantânea", "segredo que médicos não querem",
   "governo esconde", "conspiracy"]

/-- The generic source synthesized when the model returns no `sources` array. -/
def geminiDefaultSource : JsonValue :=
  .obj [("title", .str "Verificação por IA Gemini"),
        ("url", .str "https://gemini.google.com/"),
        ("summary", .str "Análise realizada pela inteligência artificial Gemini com busca na internet")]

/-- The search-link source synthesized when the model returns an empty
`sources` array. -/
def googleFallbackSource (text : String) : JsonValue :=
  .obj [("title", .str "Análise de Verificação de Fatos"),
        ("url", .str ("https://www.google.com/search?q=" ++ encodeURIComponent (jsSubstring text 100))),
        ("summary", .str "Busca realizada para verificar a veracidade da informação")]

/-- Fallback justification used when the parsed object has no usable
`justification` field. -/
def geminiFallbackJust (raw : String) : String :=
  if containsSub raw "\x7b" then "Análise realizada com base em verificação de fontes online."
  else raw

/-- The validation/cleaning section of `factCheckWithGemini` (lines 449–511):
coerce `status` into the enumeration (falling back to a keyword scan of the
raw response, which also overwrites `confidence`), range-check `confidence`,
default `justification`, and default a missing or empty `sources` array. -/
def validateGemini (text : String) (parsed : JsonValue) (raw : String) : FactCheckResult :=
  let statusKept : Option String :=
    match jget parsed "status" with
    | some (.str s) =>
      if s = "real" || s = "fake" || s = "uncertain" then some s else none
    | _ => none
  let statusConf : String × Option JsonValue :=
    match statusKept with
    | some s => (s, jget parsed "confidence")
    | none =>
      let responseText := lowerStr raw
      if containsSub responseText "verdadeiro" || containsSub responseText "real" ||
          containsSub responseText "confirmado" then ("real", some (.num 80))
      else if containsSub responseText "falso" || containsSub responseText "fake" ||
          containsSub responseText "incorreto" then ("fake", some (.num 80))
      else ("uncertain", some (.num 50))
  let status := statusConf.1
  let confDefault : ℚ := if status = "real" || status = "fake" then 80 else 50
  let confidence : ℚ :=
    match statusConf.2 with
    | some (.num q) => if q < 0 || 100 < q then confDefault else q
    | _ => confDefault
  let justification :=
    match jget parsed "justification" with
    | some (.str s) => if s = "" then geminiFallbackJust raw else s
    | _ => geminiFallbackJust raw
  let sources : List JsonValue :=
    match jget parsed "sources" with
    | some (.arr xs) => if xs.length = 0 then [googleFallbackSource text] else xs
    | _ => [geminiDefaultSource]
  ⟨status, confidence, justification, sources⟩

/-- The catch-block fallback of `factCheckWithGemini` (lines 513–549):
keyword scan of the input text, degraded verdict, two generic sources. -/
def geminiCatchFallback (text msg : String) : FactCheckResult :=
  let errorMessage := if msg = "" then "Erro desconhecido" else msg
  let textLower := lowerStr text
  let hasSuspiciousWords := suspiciousWords.any fun w => containsSub textLower w
  let fallbackStatus := if hasSuspiciousWords then "fake" else "uncertain"
  let fallbackConfidence : ℚ := if hasSuspiciousWords then 60 else 40
  { status := fallbackStatus
    confidence := fallbackConfidence
    justification :=
      "Não foi possível verificar completamente a informação devido a erro técnico: " ++
      errorMessage ++
      ". Recomenda-se consultar fontes oficiais e veículos de imprensa confiáveis para confirmação. " ++
      (if hasSuspiciousWords then "O texto contém expressões comumente associadas a desinformação." else "")
    sources :=
      [.obj [("title", .str "Recomendação de verificação manual"),
             ("url", .str ("https://www.google.com/search?q=" ++ encodeURIComponent (jsSubstring text 100))),
             ("summary", .str "Consulte fontes oficiais, veículos de comunicação respeitados e órgãos competentes para verificar esta informação.")],
       .obj [("title", .str "Agências de Fact-Checking Brasileiras"),
             ("url", .str "https://www.aos.com.br/fact-checking/"),
             ("summary", .str "Consulte agências especializadas em verificação de fatos como Lupa, Aos Fatos, e outras para informações confiáveis.")]] }

/-- `factCheckWithGemini`. The missing-key throw sits before the `try`, so it
escapes as `Except.error`; everything inside the `try` is absorbed by the
`catch` into `geminiCatchFallback`. -/
def factCheckWithGemini (env : ExtEnv) (text : String) : Except String FactCheckResult :=
  match env.apiKey with
  | none => .error "GEMINI_API_KEY not found"
  | some _ =>
    match env.geminiFailure with
    | some msg => .ok (geminiCatchFallback text msg)
    | none => .ok (validateGemini text env.geminiParsed env.geminiRaw)

/-! ## The cache store (`fact_checks` table)

`part_002` declares `text_hash text UNIQUE`; the handler reads with
`.eq('text_hash', h).maybeSingle()` and writes with `.insert(...)`. The store
is modelled as an insertion-ordered list of rows. -/

/-- One row of `fact_checks` (timestamps, id and the unread `search_results`
blob omitted). -/
structure CacheRow where
  input_text : String
  text_hash : String
  status : String
  confidence : ℚ
  justification : String
  sources : List JsonValue

/-- `select * where text_hash = h maybeSingle`. -/
def lookupStore (st : List CacheRow) (h : String) : Option CacheRow :=
  st.find? fun r => decide (r.text_hash = h)

/-- `insert` of a fresh row. -/
def insertStore (st : List CacheRow) (row : CacheRow) : List CacheRow := st ++ [row]

/-! ## The `serve` handler (src/supabase/functions/fact-check/index.ts, lines 552–663) -/

/-- The HTTP method, as far as the handler inspects it. -/
inductive HttpMethod where
  | options : HttpMethod
  | post : HttpMethod

/-- An incoming request. The handler reads only the method and the JSON body;
the client identity and arrival time are never consulted (there is no rate
limiter in the code). `body = none` models a `req.json()` parse failure. -/
structure Request where
  method : HttpMethod
  clientInfo : String
  timeMs : Nat
  body : Option JsonValue

/-- The verdict-shaped 200 body. -/
structure VerdictOut where
  status : String
  confidence : ℚ
  justification : String
  sources : List JsonValue
  cached : Bool

/-- A response body: CORS preflight (empty), a 400 error, a verdict, or the
500 envelope which carries both an error and a fallback verdict shape. -/
inductive RespBody where
  | empty : RespBody
  | errMsg (error : String) : RespBody
  | errVerdict (error : String) (status : String) (confidence : ℚ)
      (justification : String) (sources : List JsonValue) : RespBody
  | verdict (v : VerdictOut) : RespBody

/-- An HTTP response. -/
structure Response where
  statusCode : Nat
  body : RespBody

/-- The 500 response built by the outer catch of the handler. -/
def serverErrorResp (msg : String) : Response :=
  ⟨500, .errVerdict ("Erro interno do servidor: " ++ msg) "uncertain" 30
    "Ocorreu um erro técnico durante a verificação. Tente novamente em alguns instantes." []⟩

/-- The 400 response for missing/empty text. -/
def badRequestResp : Response := ⟨400, .errMsg "Texto é obrigatório para verificação"⟩

/-- The `serve` handler: CORS preflight, body parsing, validation, trim +
hash, cache lookup (a fetch error is logged and treated as a miss), Gemini on
a miss (a throw there is converted by the outer catch into a 500),
best-effort insert (an insert error is logged and ignored), and the
fresh-verdict response. The destructuring `const { text } = await req.json()`
throws a TypeError when the parsed body is JSON `null`, which the outer catch
answers with a 500, not a 400; every other JSON value yields `undefined` for
a missing `text` property and falls into the 400 validation branch. -/
def handleRequest (st : List CacheRow) (env : ExtEnv) (req : Request) :
    Response × List CacheRow :=
  match req.method with
  | .options => (⟨200, .empty⟩, st)
  | .post =>
    match req.body with
    | none => (serverErrorResp "Unexpected end of JSON input", st)
    | some .null =>
      (serverErrorResp "Cannot destructure property text of req.json as it is null.", st)
    | some body =>
      match jget body "text" with
      | some (.str s) =>
        if s = "" || jsTrim s = "" then (badRequestResp, st)
        else
          let cleanText := jsTrim s
          let textHash := hashText cleanText
          let existing := if env.fetchFails then none else lookupStore st textHash
          match existing with
          | some row =>
            (⟨200, .verdict ⟨row.status, row.confidence, row.justification, row.sources, true⟩⟩, st)
          | none =>
            match factCheckWithGemini env cleanText with
            | .error e => (serverErrorResp e, st)
            | .ok r =>
              let st2 :=
                if env.insertFails then st
                else insertStore st ⟨cleanText, textHash, r.status, r.confidence, r.justification, r.sources⟩
              (⟨200, .verdict ⟨r.status, r.confidence, r.justification, r.sources, false⟩⟩, st2)
      | _ => (badRequestResp, st)

/-- Run a sequence of requests against the handler, threading the store. -/
def runSeq (st : List CacheRow) (env : ExtEnv) : List Request → List Response × List CacheRow
  | [] => ([], st)
  | r :: rs =>
    let step := handleRequest st env r
    let rest := runSeq step.2 env rs
    (step.1 :: rest.1, rest.2)

/-! ## Client-side `analyzeText` (src/src/services/fakeNewsDetector.ts, lines 490–575) -/

/-- The result type of the client service. -/
structure AnalysisResult where
  status : String
  confidence : ℚ
  justification : String
  sources : List JsonValue
  cached : Bool

/-- The entry validation of `analyzeText`, shared by both client variants:
reject empty/whitespace-only text, sanitize, reject under 10 characters.
(`sanitizeClientInput` cannot throw here because the text is already known to
be a non-empty string, so its rethrow branch is dead.) -/
def analyzeTextEntry (text : String) : Except String String :=
  if text = "" || jsTrim text = "" then .error "Texto não pode estar vazio"
  else
    let cleanText := sanitizeCore text
    if cleanText.length < 10 then
      .error "Texto muito curto para análise (mínimo 10 caracteres)"
    else .ok cleanText

/-- The response validation of `analyzeText` (lines 538–547): coerce `status`
into the enumeration, range-check `confidence` (default 50), bound
`justification` to 1000 characters, keep at most 5 entries of a `sources`
array (empty list when the field is not an array). -/
def validateResponse (data : JsonValue) : AnalysisResult :=
  { status :=
      match jget data "status" with
      | some (.str s) =>
        if s = "real" || s = "fake" || s = "uncertain" then s else "uncertain"
      | _ => "uncertain"
    confidence :=
      match jget data "confidence" with
      | some (.num q) => if 0 ≤ q && q ≤ 100 then q else 50
      | _ => 50
    justification :=
      match jget data "justification" with
      | some (.str s) => jsSubstring s 1000
      | _ => "Análise não disponível"
    sources :=
      match jget data "sources" with
      | some (.arr xs) => xs.take 5
      | _ => []
    cached := false }

/-- The catch-block fallback of the client `analyzeText` (lines 551–574). -/
def clientCatchFallback (cleanText msg : String) : AnalysisResult :=
  let errorMessage := if msg = "" then "Erro desconhecido" else msg
  { status := "uncertain"
    confidence := 20
    justification :=
      "Não foi possível verificar a informação: " ++ errorMessage ++
      ". Verifique sua conexão com a internet e tente novamente. Se o problema persistir, consulte fontes confiáveis como veículos de imprensa respeitados e órgãos oficiais."
    sources :=
      [.obj [("title", .str "Google - Pesquisa sobre o assunto"),
             ("url", .str ("https://www.google.com/search?q=" ++ encodeURIComponent (jsSubstring cleanText 100))),
             ("summary", .str "Faça uma pesquisa no Google para encontrar informações atualizadas sobre este assunto")],
       .obj [("title", .str "Verificação Manual Recomendada"),
             ("url", .str "https://www.gov.br/"),
             ("summary", .str "Consulte sites oficiais do governo, universidades e veículos de imprensa confiáveis para verificar a informação")]]
    cached := false }

/-- Processing of a received response payload by the client `analyzeText`:
a falsy payload makes the code throw `Nenhum dado retornado da verificação`
(recovered by the catch block); any other payload goes through
`validateResponse`. -/
def clientProcess (cleanText : String) (data : JsonValue) : AnalysisResult :=
  if jsonFalsy data then clientCatchFallback cleanText "Nenhum dado retornado da verificação"
  else validateResponse data

/-! ## The local analyzer (src/unnamed/part_001, lines 140–258) -/

/-- `fakeNewsKeywords`. -/
def fakeNewsKeywords : List String :=
  ["absolutamente garantido", "cura milagrosa", "descoberta incrível",
   "médicos odeiam", "100% comprovado", "verdade oculta",
   "eles não querem que você saiba", "descoberta revolucionária",
   "método secreto", "funciona sempre"]

/-- `uncertaintyKeywords`. -/
def uncertaintyKeywords : List String :=
  ["dizem que", "alguns especialistas", "pode ser que",
   "existe a possibilidade", "segundo rumores", "aparentemente",
   "supostamente", "talvez", "provavelmente"]

/-- `knownFacts`: pattern, status, confidence (insertion-ordered, as a JS
`Map` iterates). -/
def knownFacts : List (String × String × ℚ) :=
  [("amazonas maior estado brasileiro", "real", 95),
   ("brasília capital brasil", "real", 100),
   ("brasil independência 1822", "real", 100),
   ("real moeda brasil", "real", 100),
   ("população brasil 200 milhões", "real", 80)]

/-- Character lookup helpers for the regexp translations. -/
def wordAt (cs : List Char) (i : Nat) : Bool :=
  match cs[i]? with
  | some c => isWordChar c
  | none => false

/-- Is position `i` an ASCII digit? (out of range counts as no). -/
def digitAt (cs : List Char) (i : Nat) : Bool :=
  match cs[i]? with
  | some c => isDigit c
  | none => false

/-- Is position `i` an ASCII uppercase letter? -/
def upperAt (cs : List Char) (i : Nat) : Bool :=
  match cs[i]? with
  | some c => 'A' ≤ c && c ≤ 'Z'
  | none => false

/-- The character class `[a-záção\s]` of the entity regexp (the class lists
`a-z`, `á`, `ç`, `ã`, a redundant `o`, and whitespace). -/
def entityClassChar (c : Char) : Bool :=
  ('a' ≤ c && c ≤ 'z') || c = 'á' || c = 'ç' || c = 'ã' || isWs c

/-- Is position `i` in the entity character class? -/
def entityClassAt (cs : List Char) (i : Nat) : Bool :=
  match cs[i]? with
  | some c => entityClassChar c
  | none => false

/-- `/\d+/.test(text)`. -/
def hasNumbersTest (s : String) : Bool := s.data.any isDigit

/-- `/\d{4}|\d{1,2}\/\d{1,2}/.test(text)`: four consecutive digits, or a
digit, a slash and a digit (the one-digit instances of `\d{1,2}`). -/
def hasSpecificDatesTest (s : String) : Bool :=
  let cs := s.data
  ((List.range cs.length).any fun i =>
    digitAt cs i && digitAt cs (i + 1) && digitAt cs (i + 2) && digitAt cs (i + 3)) ||
  ((List.range cs.length).any fun i =>
    digitAt cs i &&
    (match cs[i + 1]? with
     | some c => decide (c = '/')
     | none => false) &&
    digitAt cs (i + 2))

/-- `/\b[A-Z][a-záção\s]+\b/.test(text)`: a match exists iff some position
`i` carries an uppercase letter preceded by a word boundary, followed by at
least one class character up to some position `j`, with a word boundary after
`j` (JavaScript `\b` compares `\w`-ness of adjacent positions; out of range
is a non-word position). -/
def hasSpecificEntitiesTest (s : String) : Bool :=
  let cs := s.data
  let n := cs.length
  (List.range n).any fun i =>
    upperAt cs i && (decide (i = 0) || !wordAt cs (i - 1)) &&
    ((List.range' (i + 1) (n - (i + 1))).any fun j =>
      ((List.range' (i + 1) (j - i)).all fun k => entityClassAt cs k) &&
      (wordAt cs j != wordAt cs (j + 1)))

/-- Justification of the known-fact branch. -/
def knownFactJust (text : String) : String :=
  "Esta informação corresponde a um fato amplamente conhecido e verificado. \"" ++
  jsSubstring text 100 ++ "...\" é considerada uma informação factual."

/-- `analyzeTextLocally` (lines 164–258): known facts, then fake-news
keywords, then uncertainty keywords, then a specificity heuristic. -/
def analyzeTextLocally (text : String) : AnalysisResult :=
  let lowerText := lowerStr text
  match knownFacts.find? (fun f => containsSub lowerText f.1) with
  | some f =>
    { status := f.2.1, confidence := f.2.2
      justification := knownFactJust text
      sources :=
        [.obj [("title", .str "Fato Verificado"),
               ("url", .str ("https://www.google.com/search?q=" ++ encodeURIComponent f.1)),
               ("summary", .str "Informação verificada com base em fontes oficiais")]]
      cached := false }
  | none =>
    let fakeKeywordsFound := fakeNewsKeywords.filter fun k => containsSub lowerText k
    if 0 < fakeKeywordsFound.length then
      { status := "fake"
        confidence := ((75 + 5 * fakeKeywordsFound.length : ℤ) : ℚ)
        justification :=
          "O texto contém expressões comumente associadas a desinformação: \"" ++
          String.intercalate "\", \"" fakeKeywordsFound ++
          "\". Estas palavras frequentemente aparecem em conteúdo não verificado."
        sources :=
          [.obj [("title", .str "Análise de Padrões Linguísticos"),
                 ("url", .str "https://www.google.com/search?q=como+identificar+fake+news"),
                 ("summary", .str "Identificados padrões de linguagem típicos de desinformação")]]
        cached := false }
    else
      let uncertainKeywordsFound := uncertaintyKeywords.filter fun k => containsSub lowerText k
      if 1 < uncertainKeywordsFound.length then
        { status := "uncertain"
          confidence := ((40 - 5 * uncertainKeywordsFound.length : ℤ) : ℚ)
          justification :=
            "O texto contém múltiplas expressões de incerteza: \"" ++
            String.intercalate "\", \"" uncertainKeywordsFound ++
            "\". Isso sugere falta de informações precisas ou fontes não confirmadas."
          sources :=
            [.obj [("title", .str "Verificação Recomendada"),
                   ("url", .str ("https://www.google.com/search?q=" ++ encodeURIComponent (jsSubstring text 100))),
                   ("summary", .str "Recomenda-se verificar a informação em fontes oficiais")]]
          cached := false }
      else
        let hasNumbers := hasNumbersTest text
        let hasSpecificDates := hasSpecificDatesTest text
        let hasSpecificEntities := hasSpecificEntitiesTest text
        let confidence : ℚ :=
          if hasNumbers && hasSpecificDates && hasSpecificEntities then 70
          else if !hasNumbers && !hasSpecificDates && !hasSpecificEntities then 30
          else 50
        let status :=
          if hasNumbers && hasSpecificDates && hasSpecificEntities then "real"
          else "uncertain"
        { status := status, confidence := confidence
          justification :=
            "Análise baseada na especificidade do conteúdo: " ++
            (if hasNumbers then "contém dados numéricos, " else "") ++
            (if hasSpecificDates then "menciona datas específicas, " else "") ++
            (if hasSpecificEntities then "cita entidades específicas" else "informações genéricas") ++
            ". Recomenda-se verificação em fontes confiáveis."
          sources :=
            [.obj [("title", .str "Busca no Google"),
                   ("url", .str ("https://www.google.com/search?q=" ++ encodeURIComponent (jsSubstring text 100))),
                   ("summary", .str "Faça uma pesquisa para verificar as informações mencionadas")],
             .obj [("title", .str "Agências de Fact-Checking"),
                   ("url", .str "https://www.aosfatos.org/"),
                   ("summary", .str "Consulte agências especializadas em verificação de fatos")]]
          cached := false }

/-! ## Concrete inputs used by the claim theorems -/

/-- A valid input (104 characters, fixed by sanitization) containing six of
the ten `fakeNewsKeywords`. -/
def sixKeywordText : String :=
  "absolutamente garantido cura milagrosa descoberta incrível médicos odeiam 100% comprovado verdade oculta"

/-- A 2005-character input whose sanitized form is exactly 2000 characters
and ends in a space (truncation cuts just after a space). -/
def truncBoundaryText : String :=
  String.mk (List.replicate 1999 'a' ++ ' ' :: List.replicate 5 'b')

/-- A generic valid text used to drive the requester and handler examples. -/
def sampleText : String := "O Amazonas é o maior estado do Brasil"

/-- An environment with no `GEMINI_API_KEY` set. -/
def envNoKey : ExtEnv :=
  ⟨none, none, .null, "", false, false⟩

/-- An environment with a key where the external call fails. -/
def envCallFails : ExtEnv :=
  ⟨some "chave-de-teste", some "Gemini API error: 500 - indisponivel", .null, "", false, false⟩

/-- An environment with a key where the external call succeeds and parses. -/
def envCallOk : ExtEnv :=
  ⟨some "chave-de-teste",
   none,
   .obj [("status", .str "real"), ("confidence", .num 90),
         ("justification", .str "Confirmado por fontes oficiais."),
         ("sources", .arr [.obj [("title", .str "IBGE"), ("url", .str "https://www.ibge.gov.br/"), ("summary", .str "Dados oficiais")]])],
   "resposta bruta",
   false, false⟩

/-- A POST request carrying the given text from the given client at the given
time. -/
def mkReq (client : String) (t : Nat) (text : String) : Request :=
  ⟨.post, client, t, some (.obj [("text", .str text)])⟩

/-- The `cached` flag of a verdict response (`none` for non-verdict bodies). -/
def respCached (r : Response) : Option Bool :=
  match r.body with
  | .verdict v => some v.cached
  | _ => none

/-- Replace the insert outcome of an environment. -/
def setInsertFails (env : ExtEnv) (b : Bool) : ExtEnv :=
  ⟨env.apiKey, env.geminiFailure, env.geminiParsed, env.geminiRaw, env.fetchFails, b⟩

/-- A character list is whitespace-normal when no two adjacent characters are
both whitespace and every whitespace character is a plain space. This is the
shape `replace(/\s+/g, ' ')` produces. -/
def WsNormal (l : List Char) : Prop :=
  l.Chain' (fun a b => ¬(isWs a = true ∧ isWs b = true)) ∧
  ∀ c ∈ l, isWs c = true → c = ' '

/-! ## Lemmas about the character classes -/

theorem forbidden_not_ws {c : Char} (h : isForbidden c = true) : isWs c = false := by
  simp only [isForbidden, Bool.or_eq_true, decide_eq_true_eq] at h
  rcases h with ((((h | h) | h) | h) | h) <;> subst h <;> decide

theorem ws_not_forbidden {c : Char} (h : isWs c = true) : isForbidden c = false := by
  cases hf : isForbidden c with
  | false => rfl
  | true => rw [forbidden_not_ws hf] at h; cases h

theorem space_is_ws : isWs ' ' = true := by decide

theorem space_not_forbidden : isForbidden ' ' = false := by decide

/-! ## Lemmas about `stripForbidden` -/

theorem strip_cons_kept {c : Char} {l : List Char} (h : isForbidden c = false) :
    stripForbidden (c :: l) = c :: stripForbidden l := by
  simp [stripForbidden, List.filter_cons, h]

theorem strip_cons_dropped {c : Char} {l : List Char} (h : isForbidden c = true) :
    stripForbidden (c :: l) = stripForbidden l := by
  simp [stripForbidden, List.filter_cons, h]

theorem strip_append (l₁ l₂ : List Char) :
    stripForbidden (l₁ ++ l₂) = stripForbidden l₁ ++ stripForbidden l₂ := by
  simp [stripForbidden, List.filter_append]

theorem strip_eq_self {l : List Char} (h : ∀ c ∈ l, isForbidden c = false) :
    stripForbidden l = l := by
  refine List.filter_eq_self.mpr fun c hc => ?_
  simp [h c hc]

theorem strip_no_forbidden {l : List Char} {c : Char} (h : c ∈ stripForbidden l) :
    isForbidden c = false := by
  have := List.of_mem_filter h
  simpa using this

theorem mem_of_mem_strip {l : List Char} {c : Char} (h : c ∈ stripForbidden l) : c ∈ l :=
  List.mem_of_mem_filter h

theorem strip_all_ws {l : List Char} (h : ∀ c ∈ l, isWs c = true) :
    stripForbidden l = l :=
  strip_eq_self fun c hc => ws_not_forbidden (h c hc)

/-! ## Lemmas about `collapseWs` -/

theorem collapse_nil : collapseWs [] = [] := rfl

theorem collapse_cons_not_ws {c : Char} {l : List Char} (h : isWs c = false) :
    collapseWs (c :: l) = c :: collapseWs l := by
  cases l with
  | nil => simp [collapseWs, h]
  | cons d cs => simp [collapseWs, h]

theorem collapse_cons_ws {c : Char} (h : isWs c = true) :
    ∀ l : List Char, collapseWs (c :: l) = ' ' :: collapseWs (l.dropWhile isWs) := by
  intro l
  induction l generalizing c with
  | nil => simp [collapseWs, h]
  | cons d cs ih =>
    by_cases hd : isWs d = true
    · have h2 : collapseWs (c :: d :: cs) = collapseWs (d :: cs) := by
        simp [collapseWs, h, hd]
      rw [h2, ih hd, List.dropWhile_cons, if_pos hd]
    · have hd' : isWs d = false := by simpa using hd
      have h2 : collapseWs (c :: d :: cs) = ' ' :: collapseWs (d :: cs) := by
        simp [collapseWs, h, hd']
      rw [h2, List.dropWhile_cons, if_neg (by simp [hd'])]

theorem collapse_append_not_ws {w : List Char} (h : ∀ c ∈ w, isWs c = false) :
    ∀ l : List Char, collapseWs (w ++ l) = w ++ collapseWs l := by
  induction w with
  | nil => intro l; rfl
  | cons c cs ih =>
    intro l
    have hc : isWs c = false := h c (by simp)
    rw [List.cons_append, collapse_cons_not_ws hc,
      ih (fun d hd => h d (by simp [hd])) l, List.cons_append]

theorem collapse_eq_self_not_ws {w : List Char} (h : ∀ c ∈ w, isWs c = false) :
    collapseWs w = w := by
  have := collapse_append_not_ws h []
  simpa [collapse_nil] using this

/-- Every character of `collapseWs l` is a space or a non-whitespace
character of `l`. -/
theorem mem_collapse {c : Char} :
    ∀ l : List Char, c ∈ collapseWs l → c = ' ' ∨ (c ∈ l ∧ isWs c = false) := by
  have key : ∀ n (l : List Char), l.length ≤ n →
      c ∈ collapseWs l → c = ' ' ∨ (c ∈ l ∧ isWs c = false) := by
    intro n
    induction n with
    | zero =>
      intro l hl hc
      interval_cases hl' : l.length
      · rw [List.length_eq_zero.mp hl'] at hc; cases hc
    | succ n ih =>
      intro l hl hc
      match l with
      | [] => cases hc
      | a :: as =>
        by_cases ha : isWs a = true
        · rw [collapse_cons_ws ha] at hc
          rcases List.mem_cons.mp hc with h1 | h1
          · exact Or.inl h1
          · have hlen : (as.dropWhile isWs).length ≤ n := by
              have := (List.dropWhile_sublist isWs (l := as)).length_le
              simp only [List.length_cons] at hl
              omega
            rcases ih _ hlen h1 with h2 | ⟨h2, h3⟩
            · exact Or.inl h2
            · exact Or.inr ⟨by simp [List.mem_cons, (List.dropWhile_sublist isWs (l := as)).mem h2], h3⟩
        · have ha' : isWs a = false := by simpa using ha
          rw [collapse_cons_not_ws ha'] at hc
          rcases List.mem_cons.mp hc with h1 | h1
          · exact Or.inr ⟨by simp [h1], h1 ▸ ha'⟩
          · have hlen : as.length ≤ n := by simp only [List.length_cons] at hl; omega
            rcases ih _ hlen h1 with h2 | ⟨h2, h3⟩
            · exact Or.inl h2
            · exact Or.inr ⟨by simp [h2], h3⟩
  exact fun l => key l.length l le_rfl

/-- The head of a `dropWhile isWs` result is never whitespace. -/
theorem head_dropWhile_not_ws :
    ∀ (l : List Char) {c : Char} {cs : List Char},
      l.dropWhile isWs = c :: cs → isWs c = false := by
  intro l
  induction l with
  | nil => intro c cs h; cases h
  | cons a as ih =>
    intro c cs h
    rw [List.dropWhile_cons] at h
    split at h
    · exact ih h
    · next ha =>
      obtain ⟨rfl, -⟩ : a = c ∧ as = cs := by
        injection h with h1 h2; exact ⟨h1, h2⟩
      simpa using ha

theorem dropWhile_all_ws_append {r : List Char} (h : ∀ c ∈ r, isWs c = true) :
    ∀ l : List Char, (r ++ l).dropWhile isWs = l.dropWhile isWs := by
  induction r with
  | nil => intro l; rfl
  | cons a as ih =>
    intro l
    rw [List.cons_append, List.dropWhile_cons, if_pos (h a (by simp))]
    exact ih (fun c hc => h c (by simp [hc])) l

/-! ## Whitespace-normality of `collapseWs` output -/

theorem wsNormal_nil : WsNormal [] := ⟨List.chain'_nil, by simp⟩

theorem wsNormal_tail {c : Char} {l : List Char} (h : WsNormal (c :: l)) : WsNormal l :=
  ⟨h.1.tail, fun d hd hws => h.2 d (by simp [hd]) hws⟩

/-- `collapseWs` output is whitespace-normal. -/
theorem wsNormal_collapse : ∀ l : List Char, WsNormal (collapseWs l) := by
  have key : ∀ n (l : List Char), l.length ≤ n → WsNormal (collapseWs l) := by
    intro n
    induction n with
    | zero =>
      intro l hl
      rw [List.length_eq_zero.mp (Nat.le_zero.mp hl)]
      exact wsNormal_nil
    | succ n ih =>
      intro l hl
      match l with
      | [] => exact wsNormal_nil
      | a :: as =>
        simp only [List.length_cons] at hl
        by_cases ha : isWs a = true
        · rw [collapse_cons_ws ha]
          have hlen : (as.dropWhile isWs).length ≤ n := by
            have := (List.dropWhile_sublist isWs (l := as)).length_le
            omega
          have hrest := ih _ hlen
          refine ⟨?_, ?_⟩
          · rw [List.chain'_cons']
            refine ⟨?_, hrest.1⟩
            intro b hb
            cases hcoll : collapseWs (as.dropWhile isWs) with
            | nil => rw [hcoll] at hb; cases hb
            | cons e es =>
              rw [hcoll] at hb
              simp only [List.head?_cons, Option.mem_def, Option.some.injEq] at hb
              subst hb
              rintro ⟨-, hbe⟩
              have : e ∈ collapseWs (as.dropWhile isWs) := by simp [hcoll]
              rcases mem_collapse _ this with h1 | ⟨h1, h2⟩
              · -- `b` is a space: but then the previous chain element is also
                -- checked; a pair (space, space) cannot occur because the
                -- head after a collapsed run is non-whitespace
                subst h1
                cases hdw : as.dropWhile isWs with
                | nil => rw [hdw] at hcoll; simp [collapse_nil] at hcoll
                | cons f fs =>
                  have hf : isWs f = false := head_dropWhile_not_ws as hdw
                  rw [hdw, collapse_cons_not_ws hf] at hcoll
                  injection hcoll with h3 h4
                  subst h3
                  rw [hf] at hbe
                  cases hbe
              · rw [h2] at hbe; cases hbe
          · intro c hc hws
            rcases List.mem_cons.mp hc with rfl | hc2
            · rfl
            · rcases mem_collapse _ hc2 with h1 | ⟨-, h2⟩
              · exact h1
              · rw [h2] at hws; cases hws
        · have ha' : isWs a = false := by simpa using ha
          rw [collapse_cons_not_ws ha']
          have hlen : as.length ≤ n := by omega
          have hrest := ih _ hlen
          refine ⟨?_, ?_⟩
          · rw [List.chain'_cons']
            refine ⟨fun b _ => by simp [ha'], hrest.1⟩
          · intro c hc hws
            rcases List.mem_cons.mp hc with rfl | hc2
            · rw [ha'] at hws; cases hws
            · rcases mem_collapse _ hc2 with h1 | ⟨-, h2⟩
              · exact h1
              · rw [h2] at hws; cases hws
  exact fun l => key l.length l le_rfl

/-- `collapseWs` fixes whitespace-normal lists. -/
theorem collapse_eq_self_of_normal : ∀ l : List Char, WsNormal l → collapseWs l = l := by
  intro l
  induction l with
  | nil => intro _; rfl
  | cons a as ih =>
    intro h
    by_cases ha : isWs a = true
    · have haSp : a = ' ' := h.2 a (by simp) ha
      cases as with
      | nil => simp [collapseWs, ha, haSp]
      | cons d cs =>
        have hd : isWs d = false := by
          have := List.chain'_cons.mp h.1
          by_contra hd'
          exact this.1 ⟨ha, by simpa using hd'⟩
        have : collapseWs (a :: d :: cs) = (if isWs a then ' ' else a) :: collapseWs (d :: cs) := by
          simp [collapseWs, ha, hd]
        rw [this, if_pos ha, ih (wsNormal_tail h), haSp]
    · have ha' : isWs a = false := by simpa using ha
      rw [collapse_cons_not_ws ha', ih (wsNormal_tail h)]

/-! ## Trim lemmas -/

theorem trimWs_eq_rdrop (l : List Char) :
    trimWs l = List.rdropWhile isWs (l.dropWhile isWs) := rfl

theorem dropWhile_eq_self_of_head {l : List Char}
    (h : ∀ c cs, l = c :: cs → isWs c = false) : l.dropWhile isWs = l := by
  cases l with
  | nil => rfl
  | cons c cs => rw [List.dropWhile_cons, if_neg (by simp [h c cs rfl])]

/-- Trimming is idempotent. -/
theorem trim_trim (l : List Char) : trimWs (trimWs l) = trimWs l := by
  rw [trimWs_eq_rdrop, trimWs_eq_rdrop]
  have hdw : (List.rdropWhile isWs (l.dropWhile isWs)).dropWhile isWs
      = List.rdropWhile isWs (l.dropWhile isWs) := by
    apply dropWhile_eq_self_of_head
    intro c cs hshape
    obtain ⟨t, ht⟩ := List.rdropWhile_prefix isWs (l.dropWhile isWs)
    rw [hshape] at ht
    exact head_dropWhile_not_ws l ht.symm
  rw [hdw, List.rdropWhile_idempotent]

/-- The result of `trimWs` is a sub-multiset of the input (characters only
disappear). -/
theorem mem_of_mem_trim {l : List Char} {c : Char} (h : c ∈ trimWs l) : c ∈ l := by
  rw [trimWs_eq_rdrop] at h
  exact (List.dropWhile_suffix isWs).subset (( List.rdropWhile_prefix isWs _).subset h)

/-- Trimming preserves whitespace-normality. -/
theorem wsNormal_trim {l : List Char} (h : WsNormal l) : WsNormal (trimWs l) := by
  rw [trimWs_eq_rdrop]
  refine ⟨?_, ?_⟩
  · exact List.Chain'.prefix (h.1.suffix (List.dropWhile_suffix isWs)) ( List.rdropWhile_prefix isWs _)
  · intro c hc hws
    exact h.2 c ((List.dropWhile_suffix isWs).subset (( List.rdropWhile_prefix isWs _).subset hc)) hws

/-! ## `collapseWs ∘ stripForbidden` is invariant under pre-collapsing

Stripping the forbidden characters can merge two whitespace runs, so
stripping and collapsing do not commute; but collapsing first never changes
the final collapsed-stripped form. This drives the fingerprint analysis. -/

theorem drop_strip_drop (v : List Char) :
    (stripForbidden v).dropWhile isWs
      = (stripForbidden (v.dropWhile isWs)).dropWhile isWs := by
  have hsplit := List.takeWhile_append_dropWhile (p := isWs) (l := v)
  have hws : ∀ c ∈ v.takeWhile isWs, isWs c = true := fun c hc => List.mem_takeWhile_imp hc
  conv_lhs => rw [← hsplit]
  rw [strip_append, strip_all_ws hws, dropWhile_all_ws_append hws]

theorem collapse_strip_aux : ∀ n, ∀ v : List Char, v.length ≤ n →
    (collapseWs (stripForbidden (collapseWs v)) = collapseWs (stripForbidden v)) ∧
    (collapseWs ((stripForbidden (collapseWs v)).dropWhile isWs)
      = collapseWs ((stripForbidden v).dropWhile isWs)) := by
  intro n
  induction n with
  | zero =>
    intro v hv
    rw [List.length_eq_zero.mp (Nat.le_zero.mp hv)]
    exact ⟨rfl, rfl⟩
  | succ n ih =>
    intro v hv
    match v with
    | [] => exact ⟨rfl, rfl⟩
    | c :: cs =>
      simp only [List.length_cons] at hv
      have hcs : cs.length ≤ n := by omega
      have hdcs : (cs.dropWhile isWs).length ≤ n := by
        have := (List.dropWhile_sublist isWs (l := cs)).length_le
        omega
      by_cases hc : isWs c = true
      · -- whitespace head: the collapsed form starts with a space
        have e1 : collapseWs (c :: cs) = ' ' :: collapseWs (cs.dropWhile isWs) :=
          collapse_cons_ws hc cs
        have e2 : stripForbidden (c :: cs) = c :: stripForbidden cs :=
          strip_cons_kept (ws_not_forbidden hc)
        have e3 : stripForbidden (' ' :: collapseWs (cs.dropWhile isWs))
            = ' ' :: stripForbidden (collapseWs (cs.dropWhile isWs)) :=
          strip_cons_kept space_not_forbidden
        have dropSpace : ∀ l : List Char, (' ' :: l).dropWhile isWs = l.dropWhile isWs := by
          intro l; rw [List.dropWhile_cons, if_pos space_is_ws]
        have dropC : ∀ l : List Char, (c :: l).dropWhile isWs = l.dropWhile isWs := by
          intro l; rw [List.dropWhile_cons, if_pos hc]
        have hQ := (ih (cs.dropWhile isWs) hdcs).2
        constructor
        · rw [e1, e2, e3, collapse_cons_ws space_is_ws, collapse_cons_ws hc, hQ,
            drop_strip_drop cs]
        · rw [e1, e2, e3, dropSpace, dropC, hQ, drop_strip_drop cs]
      · have hc' : isWs c = false := by simpa using hc
        have e1 : collapseWs (c :: cs) = c :: collapseWs cs := collapse_cons_not_ws hc'
        by_cases hf : isForbidden c = true
        · -- head is dropped by the strip on both sides
          have e2 : stripForbidden (c :: collapseWs cs) = stripForbidden (collapseWs cs) :=
            strip_cons_dropped hf
          have e3 : stripForbidden (c :: cs) = stripForbidden cs := strip_cons_dropped hf
          have hP := (ih cs hcs).1
          have hQ := (ih cs hcs).2
          exact ⟨by rw [e1, e2, e3, hP], by rw [e1, e2, e3, hQ]⟩
        · have hf' : isForbidden c = false := by simpa using hf
          have e2 : stripForbidden (c :: collapseWs cs) = c :: stripForbidden (collapseWs cs) :=
            strip_cons_kept hf'
          have e3 : stripForbidden (c :: cs) = c :: stripForbidden cs := strip_cons_kept hf'
          have hP := (ih cs hcs).1
          have dropC : ∀ l : List Char, (c :: l).dropWhile isWs = c :: l := by
            intro l; rw [List.dropWhile_cons, if_neg (by simp [hc'])]
          constructor
          · rw [e1, e2, e3, collapse_cons_not_ws hc', collapse_cons_not_ws hc', hP]
          · rw [e1, e2, e3, dropC, dropC, collapse_cons_not_ws hc', collapse_cons_not_ws hc', hP]

/-- Collapsing first never changes the collapsed-stripped form. -/
theorem collapse_strip_collapse (v : List Char) :
    collapseWs (stripForbidden (collapseWs v)) = collapseWs (stripForbidden v) :=
  (collapse_strip_aux v.length v le_rfl).1

/-- Inputs with the same whitespace-collapsed form sanitize identically. -/
theorem sanitizeCore_eq_of_collapse_eq {s t : String}
    (h : collapseWs s.data = collapseWs t.data) : sanitizeCore s = sanitizeCore t := by
  unfold sanitizeCore
  rw [← collapse_strip_collapse s.data, ← collapse_strip_collapse t.data, h]

/-! ## Fixpoint lemmas for `sanitizeCore` -/

theorem trim_eq_self_of_ends {l : List Char}
    (h1 : ∀ c cs, l = c :: cs → isWs c = false)
    (h2 : ∀ c cs, l.reverse = c :: cs → isWs c = false) : trimWs l = l := by
  unfold trimWs
  rw [dropWhile_eq_self_of_head h1, dropWhile_eq_self_of_head h2, List.reverse_reverse]

/-- When no truncation occurs, a sanitized string is a fixpoint of the
sanitizer: its characters contain no forbidden character, it is
whitespace-normal, and it carries no leading or trailing whitespace. -/
theorem sanitizeCore_fix {x : String}
    (hlen : (trimWs (collapseWs (stripForbidden x.data))).length ≤ 2000) :
    sanitizeCore (sanitizeCore x) = sanitizeCore x := by
  have hy : (sanitizeCore x).data = trimWs (collapseWs (stripForbidden x.data)) := by
    unfold sanitizeCore
    exact congrArg String.data (congrArg String.mk (List.take_of_length_le hlen))
  have hyNoForb : ∀ c ∈ (sanitizeCore x).data, isForbidden c = false := by
    intro c hc
    rw [hy] at hc
    rcases mem_collapse _ (mem_of_mem_trim hc) with rfl | ⟨hmem, -⟩
    · exact space_not_forbidden
    · exact strip_no_forbidden hmem
  have hstrip : stripForbidden (sanitizeCore x).data = (sanitizeCore x).data :=
    strip_eq_self hyNoForb
  have hnormal : WsNormal (sanitizeCore x).data := by
    rw [hy]; exact wsNormal_trim (wsNormal_collapse _)
  have hcollapse : collapseWs (sanitizeCore x).data = (sanitizeCore x).data :=
    collapse_eq_self_of_normal _ hnormal
  have htrim : trimWs (sanitizeCore x).data = (sanitizeCore x).data := by
    rw [hy]; exact trim_trim _
  have hlen2 : (sanitizeCore x).data.length ≤ 2000 := by rw [hy]; exact hlen
  show String.mk ((trimWs (collapseWs (stripForbidden (sanitizeCore x).data))).take 2000)
      = sanitizeCore x
  rw [hstrip, hcollapse, htrim, List.take_of_length_le hlen2]

/-! ## Evaluation of `sanitizeCore` on the truncation-boundary input -/

theorem replicate_a_not_ws : ∀ c ∈ List.replicate 1999 'a', isWs c = false := by
  intro c hc; rw [List.eq_of_mem_replicate hc]; decide

theorem replicate_b_not_ws : ∀ c ∈ List.replicate 5 'b', isWs c = false := by
  intro c hc; rw [List.eq_of_mem_replicate hc]; decide

theorem truncBoundary_sanitized :
    (sanitizeCore truncBoundaryText).data = List.replicate 1999 'a' ++ [' '] := by
  have hdata : truncBoundaryText.data = List.replicate 1999 'a' ++ ' ' :: List.replicate 5 'b' := rfl
  have hforb : ∀ c ∈ truncBoundaryText.data, isForbidden c = false := by
    intro c hc
    rw [hdata] at hc
    rcases List.mem_append.mp hc with h | h
    · rw [List.eq_of_mem_replicate h]; decide
    · rcases List.mem_cons.mp h with rfl | h2
      · decide
      · rw [List.eq_of_mem_replicate h2]; decide
  have hstrip : stripForbidden truncBoundaryText.data = truncBoundaryText.data :=
    strip_eq_self hforb
  have hcoll : collapseWs truncBoundaryText.data = truncBoundaryText.data := by
    rw [hdata, collapse_append_not_ws replicate_a_not_ws, collapse_cons_ws space_is_ws,
      dropWhile_eq_self_of_head (l := List.replicate 5 'b') ?_,
      collapse_eq_self_not_ws replicate_b_not_ws]
    intro c cs h
    have : c ∈ List.replicate 5 'b' := by rw [h]; simp
    rw [List.eq_of_mem_replicate this]; decide
  have hheadShape : truncBoundaryText.data
      = 'a' :: (List.replicate 1998 'a' ++ ' ' :: List.replicate 5 'b') := by
    rw [hdata, show (1999 : ℕ) = 1998 + 1 from rfl, List.replicate_succ, List.cons_append]
  have hrevShape : truncBoundaryText.data.reverse
      = 'b' :: (List.replicate 4 'b' ++ ' ' :: List.replicate 1999 'a') := by
    rw [hdata, List.reverse_append, List.reverse_cons, List.reverse_replicate,
      List.reverse_replicate, show (5 : ℕ) = 4 + 1 from rfl, List.replicate_succ,
      List.cons_append, List.cons_append, List.append_assoc, List.singleton_append]
  have htrim : trimWs truncBoundaryText.data = truncBoundaryText.data := by
    apply trim_eq_self_of_ends
    · intro c cs h
      rw [hheadShape] at h
      injection h with h1 h2
      rw [← h1]; decide
    · intro c cs h
      rw [hrevShape] at h
      injection h with h1 h2
      rw [← h1]; decide
  have htake : (trimWs (collapseWs (stripForbidden truncBoundaryText.data))).take 2000
      = List.replicate 1999 'a' ++ [' '] := by
    rw [hstrip, hcoll, htrim, hdata, List.take_append_eq_append_take,
      List.take_of_length_le (by simp), List.length_replicate]
    norm_num
  exact congrArg String.data (congrArg String.mk htake)

theorem truncBoundary_twice :
    (sanitizeCore (sanitizeCore truncBoundaryText)).data = List.replicate 1999 'a' := by
  have hdata := truncBoundary_sanitized
  have hforb : ∀ c ∈ (sanitizeCore truncBoundaryText).data, isForbidden c = false := by
    intro c hc
    rw [hdata] at hc
    rcases List.mem_append.mp hc with h | h
    · rw [List.eq_of_mem_replicate h]; decide
    · rcases List.mem_cons.mp h with rfl | h2
      · decide
      · cases h2
  have hstrip : stripForbidden (sanitizeCore truncBoundaryText).data
      = (sanitizeCore truncBoundaryText).data := strip_eq_self hforb
  have hcoll : collapseWs (sanitizeCore truncBoundaryText).data
      = (sanitizeCore truncBoundaryText).data := by
    rw [hdata, collapse_append_not_ws replicate_a_not_ws]
    rfl
  have hheadShape : (sanitizeCore truncBoundaryText).data
      = 'a' :: (List.replicate 1998 'a' ++ [' ']) := by
    rw [hdata, show (1999 : ℕ) = 1998 + 1 from rfl, List.replicate_succ, List.cons_append]
  have hrevShape : (sanitizeCore truncBoundaryText).data.reverse
      = ' ' :: List.replicate 1999 'a' := by
    rw [hdata, List.reverse_append, List.reverse_replicate, List.reverse_singleton,
      List.singleton_append]
  have htrim : trimWs (sanitizeCore truncBoundaryText).data = List.replicate 1999 'a' := by
    unfold trimWs
    rw [dropWhile_eq_self_of_head (l := (sanitizeCore truncBoundaryText).data) ?side]
    case side =>
      intro c cs h
      rw [hheadShape] at h
      injection h with h1 h2
      rw [← h1]; decide
    rw [hrevShape, List.dropWhile_cons, if_pos space_is_ws,
      dropWhile_eq_self_of_head (l := List.replicate 1999 'a') ?head2,
      List.reverse_replicate]
    case head2 =>
      intro c cs h
      have : c ∈ List.replicate 1999 'a' := by rw [h]; simp
      rw [List.eq_of_mem_replicate this]; decide
  show (String.mk ((trimWs (collapseWs (stripForbidden (sanitizeCore truncBoundaryText).data))).take 2000)).data
      = List.replicate 1999 'a'
  rw [hstrip, hcoll, htrim, List.take_of_length_le (by simp)]

/-! ## Claim theorems -/

/-- C1: the claim states that for every valid input (length between 10 and
2000 after sanitization) the verdict's confidence is an integer in [0, 100].
The code violates this: `analyzeTextLocally` computes
`75 + 5 × (number of fake-news keywords found)`, so the 104-character input
`sixKeywordText` — fixed by sanitization, hence valid — containing six of the
ten keywords yields status `fake` with confidence 105 > 100 (the repository's
own schema, `part_002`, constrains `confidence` with
`CHECK (confidence >= 0 AND confidence <= 100)`). -/
theorem claim1_local_confidence_out_of_range :
    sanitizeCore sixKeywordText = sixKeywordText ∧
    10 ≤ sixKeywordText.length ∧ sixKeywordText.length ≤ 2000 ∧
    (analyzeTextLocally sixKeywordText).status = "fake" ∧
    (analyzeTextLocally sixKeywordText).confidence = 105 ∧
    ¬ (analyzeTextLocally sixKeywordText).confidence ≤ 100 := by
  refine ⟨by decide, by decide, by decide, by decide, by decide, by decide⟩

/-- C3 (counterexample): `hashText` neither case-folds nor
whitespace-normalizes — two texts differing only in letter case, and two
texts differing only in repeated whitespace, produce different fingerprints;
consequently a case variant of an already-cached text misses the cache at the
serve handler. -/
theorem claim3_counterexample :
    (hashText "Amazonas maior" ≠ hashText "amazonas maior") ∧
    (hashText "a  b  c" ≠ hashText "a b c") ∧
    (respCached (handleRequest
        (handleRequest [] envCallFails (mkReq "cliente" 0 sampleText)).2
        envCallFails (mkReq "cliente" 1000 (lowerStr sampleText))).1 = some false) := by
  refine ⟨by decide, by decide, by decide⟩

/-- C3 (amended): `hashText` itself hashes the exact string. The whitespace
half of the claim survives at the client boundary: two texts with the same
whitespace-collapsed form (i.e. differing only in whitespace runs) sanitize
identically and therefore produce the same fingerprint and hit the same cache
entry; but nothing case-folds, so case variants may produce different
fingerprints. -/
theorem claim3_client_whitespace_fingerprint (s t : String)
    (h : collapseWs s.data = collapseWs t.data) :
    sanitizeCore s = sanitizeCore t ∧
    hashText (sanitizeCore s) = hashText (sanitizeCore t) := by
  have hs := sanitizeCore_eq_of_collapse_eq h
  exact ⟨hs, congrArg hashText hs⟩

/-- Witness for C3: applies the amended theorem at concrete inputs that
differ only in repeated whitespace. -/
theorem claim3_witness :
    hashText (sanitizeCore "ola  mundo  bom dia") = hashText (sanitizeCore "ola mundo bom dia") :=
  (claim3_client_whitespace_fingerprint "ola  mundo  bom dia" "ola mundo bom dia" (by decide)).2

/-- C7 (counterexample): `sanitizeCore` is not idempotent. On a 2005-character
input whose stripped/collapsed/trimmed form is longer than 2000 characters,
the final truncation can cut immediately after a space, leaving a trailing
space that a second sanitization trims away. -/
theorem claim7_counterexample :
    sanitizeCore (sanitizeCore truncBoundaryText) ≠ sanitizeCore truncBoundaryText := by
  intro h
  have h2 := congrArg String.data h
  rw [truncBoundary_twice, truncBoundary_sanitized] at h2
  have h3 := congrArg List.length h2
  simp only [List.length_replicate, List.length_append, List.length_cons,
    List.length_nil] at h3
  omega

/-- C7 (amended): normalization is idempotent on every input that is not
truncated — whenever the stripped, whitespace-collapsed, trimmed form has at
most 2000 characters, `sanitizeCore (sanitizeCore x) = sanitizeCore x`.
Truncation at the 2000-character cap is the only source of non-idempotence
(it can expose a trailing space, as the counterexample shows). -/
theorem claim7_idempotent_without_truncation (x : String)
    (h : (trimWs (collapseWs (stripForbidden x.data))).length ≤ 2000) :
    sanitizeCore (sanitizeCore x) = sanitizeCore x :=
  sanitizeCore_fix h

/-- Witness for C7: the amended idempotence applied to a concrete short
input. -/
theorem claim7_witness :
    sanitizeCore (sanitizeCore "  Texto com   espaços  ") = sanitizeCore "  Texto com   espaços  " :=
  claim7_idempotent_without_truncation "  Texto com   espaços  " (by decide)

/-- C2 (counterexample): the claim states that `factCheckWithGemini` never
raises past its boundary — including for a missing API credential — and that
its failure fallback has status `uncertain` with confidence about 20–30. In
the code the missing-key check sits before the `try` block and throws, and
the catch fallback uses confidence 40 (or status `fake` with confidence 60
when the input contains suspicious keywords). -/
theorem claim2_counterexample :
    ((factCheckWithGemini envNoKey sampleText).isOk = false) ∧
    ((factCheckWithGemini envCallFails sampleText).toOption.map FactCheckResult.confidence
      = some 40) ∧
    ¬ ((20 : ℚ) ≤ 40 ∧ (40 : ℚ) ≤ 30) ∧
    ((factCheckWithGemini envCallFails "dizem que o governo esconde um milagre da medicina").toOption.map
        FactCheckResult.status = some "fake") := by
  refine ⟨by decide, by decide, by decide, by decide⟩

/-- C2 (amended): with the API key present, `factCheckWithGemini` never
raises — every path returns a `FactCheckResult`; when the guarded block
fails, the fallback verdict is `uncertain` with confidence 40, or `fake` with
confidence 60 if the text contains one of the suspicious keywords, with a
non-empty explanation and at least one (in fact two) generic sources. When
the API credential is missing, the function throws past its boundary. -/
theorem claim2_requester_fallback :
    (∀ (env : ExtEnv) (text : String), env.apiKey.isSome = true →
      (factCheckWithGemini env text).isOk = true) ∧
    (∀ (env : ExtEnv) (text key msg : String),
      env.apiKey = some key → env.geminiFailure = some msg →
      ∃ r, factCheckWithGemini env text = .ok r ∧
        ((r.status = "uncertain" ∧ r.confidence = 40) ∨
          (r.status = "fake" ∧ r.confidence = 60)) ∧
        0 < r.justification.length ∧ r.sources.length = 2) ∧
    (∀ (env : ExtEnv) (text : String), env.apiKey = none →
      factCheckWithGemini env text = .error "GEMINI_API_KEY not found") := by
  refine ⟨?_, ?_, ?_⟩
  · intro env text h
    unfold factCheckWithGemini
    cases henv : env.apiKey with
    | none => rw [henv] at h; cases h
    | some key => cases env.geminiFailure <;> rfl
  · intro env text key msg hk hf
    refine ⟨geminiCatchFallback text msg, ?_, ?_, ?_, ?_⟩
    · unfold factCheckWithGemini; rw [hk, hf]
    · unfold geminiCatchFallback
      by_cases hs : (suspiciousWords.any fun w => containsSub (lowerStr text) w) = true
      · right
        refine ⟨?_, ?_⟩ <;> simp [hs]
      · left
        simp only [Bool.not_eq_true] at hs
        refine ⟨?_, ?_⟩ <;> simp [hs]
    · unfold geminiCatchFallback
      simp only [String.length_append]
      have : 0 < ("Não foi possível verificar completamente a informação devido a erro técnico: " : String).length := by decide
      omega
    · unfold geminiCatchFallback
      rfl
  · intro env text h
    unfold factCheckWithGemini
    rw [h]

/-- Witness for C2: the amended theorem applied at a concrete environment
with the key present. -/
theorem claim2_witness : (factCheckWithGemini envCallOk sampleText).isOk = true :=
  claim2_requester_fallback.1 envCallOk sampleText (by decide)

/-- C5 (counterexample): there is no rate limiter — eleven requests from the
same client within eleven seconds are all answered 200 (none with 429), and
the eleventh is served from the cache (`cached = true`), so it also reached
the cache rather than being denied before it. -/
theorem claim5_counterexample :
    ((runSeq [] envCallFails
        ((List.range 11).map fun i => mkReq "cliente-1" (i * 1000) sampleText)).1.map
        Response.statusCode = List.replicate 11 200) ∧
    (((runSeq [] envCallFails
        ((List.range 11).map fun i => mkReq "cliente-1" (i * 1000) sampleText)).1[10]?.map
        respCached) = some (some true)) := by
  refine ⟨by decide, by decide⟩

/-- C5 (amended): the serve handler implements no rate limiting at all: no
request — whatever the store, environment, client identity, timing or body —
is ever answered with HTTP 429; the only status codes it produces are 200,
400 and 500. -/
theorem claim5_no_rate_limiting (st : List CacheRow) (env : ExtEnv) (req : Request) :
    (handleRequest st env req).1.statusCode = 200 ∨
    (handleRequest st env req).1.statusCode = 400 ∨
    (handleRequest st env req).1.statusCode = 500 := by
  unfold handleRequest
  repeat' split
  all_goals dsimp only
  all_goals repeat' split
  all_goals simp [serverErrorResp, badRequestResp]

/-- C6 (counterexample): validation is not applied identically at the two
boundaries. The five-character text `curto` is rejected by the client's
entry validation (under 10 characters) but the serve handler accepts it and
answers 200 — it never enforces the 10-character minimum. -/
theorem claim6_counterexample :
    ((analyzeTextEntry "curto").isOk = false) ∧
    ((handleRequest [] envCallFails (mkReq "cliente" 0 "curto")).1.statusCode = 200) := by
  refine ⟨by decide, by decide⟩

/-- C6 (amended): the client boundary rejects the empty string,
whitespace-only strings and any input whose sanitized form is shorter than 10
characters with a thrown validation error (an `Except.error`, not a crash);
the service boundary returns 400 exactly for a non-null JSON body whose
`text` field is missing, not a string, empty or whitespace-only — a JSON
`null` body instead throws at the destructuring and is answered 500 — and it
never returns 400 for any non-empty, non-whitespace text: the 10-character
minimum and the character stripping are not applied there. -/
theorem claim6_boundary_validation :
    (∀ s : String, jsTrim s = "" → (analyzeTextEntry s).isOk = false) ∧
    (∀ s : String, (sanitizeCore s).length < 10 → (analyzeTextEntry s).isOk = false) ∧
    (∀ (st : List CacheRow) (env : ExtEnv) (client : String) (t : Nat) (s : String),
      jsTrim s = "" → (handleRequest st env (mkReq client t s)).1.statusCode = 400) ∧
    (∀ (st : List CacheRow) (env : ExtEnv) (req : Request) (body : JsonValue),
      req.method = .post → req.body = some body → body ≠ JsonValue.null →
      jget body "text" = none →
      (handleRequest st env req).1.statusCode = 400) ∧
    (∀ (st : List CacheRow) (env : ExtEnv) (req : Request),
      req.method = .post → req.body = some JsonValue.null →
      (handleRequest st env req).1.statusCode = 500) ∧
    (∀ (st : List CacheRow) (env : ExtEnv) (client : String) (t : Nat) (s : String),
      s ≠ "" → jsTrim s ≠ "" →
      (handleRequest st env (mkReq client t s)).1.statusCode ≠ 400) := by
  refine ⟨?_, ?_, ?_, ?_, ?_, ?_⟩
  · intro s h
    unfold analyzeTextEntry
    rw [h]
    simp [Except.isOk, Except.toBool]
  · intro s h
    unfold analyzeTextEntry
    by_cases h0 : (s = "" || jsTrim s = "") = true
    · simp [h0, Except.isOk, Except.toBool]
    · simp only [Bool.not_eq_true] at h0
      simp [h0, h, Except.isOk, Except.toBool]
  · intro st env client t s h
    unfold handleRequest mkReq
    have hj : jget (JsonValue.obj [("text", JsonValue.str s)]) "text" = some (JsonValue.str s) := by
      simp [jget, List.find?]
    dsimp only
    rw [hj]
    simp [h, badRequestResp]
  · intro st env req body hm hb hnull hget
    unfold handleRequest
    rw [hm, hb]
    cases body with
    | null => exact absurd rfl hnull
    | bool b => dsimp only; rw [hget]; rfl
    | num q => dsimp only; rw [hget]; rfl
    | str sv => dsimp only; rw [hget]; rfl
    | arr xs => dsimp only; rw [hget]; rfl
    | obj fs => dsimp only; rw [hget]; rfl
  · intro st env req hm hb
    unfold handleRequest
    rw [hm, hb]
    rfl
  · intro st env client t s hs htr
    unfold handleRequest mkReq
    have hj : jget (JsonValue.obj [("text", JsonValue.str s)]) "text" = some (JsonValue.str s) := by
      simp [jget, List.find?]
    dsimp only
    simp only [hj]
    rw [if_neg (by simp [hs, htr])]
    repeat' split
    all_goals simp [serverErrorResp]

/-- Witness for C6: the amended theorem applied to a whitespace-only request
body at the service boundary. -/
theorem claim6_witness :
    (handleRequest [] envCallOk (mkReq "cliente" 0 "   ")).1.statusCode = 400 :=
  claim6_boundary_validation.2.2.1 [] envCallOk "cliente" 0 "   " (by decide)

/-- C8 (counterexample): the claim says every verdict returned to the user
has a non-empty sources list of at most 5 entries. The client-side response
validation passes an empty `sources` array through unchanged (no fallback is
synthesized), and the server-side `validateGemini` does not truncate a
6-entry list to 5. -/
theorem claim8_counterexample :
    ((validateResponse (.obj [("status", .str "real"), ("confidence", .num 90),
        ("justification", .str "ok bem explicado"), ("sources", .arr [])])).sources.length
      = 0) ∧
    ((validateGemini sampleText (.obj [("status", .str "real"), ("confidence", .num 90),
        ("justification", .str "ok"),
        ("sources", .arr (List.replicate 6 (JsonValue.str "x")))]) "resposta").sources.length
      = 6) := by
  refine ⟨by decide, by decide⟩

/-- C8 (amended): the server-side requester always returns at least one
source — `validateGemini` synthesizes a default when the parsed `sources` is
missing or empty, and the catch fallback carries two — but it never truncates
to 5; the client-side validation truncates to at most 5 but may leave the
list empty. -/
theorem claim8_sources_bounds :
    (∀ (env : ExtEnv) (text key : String), env.apiKey = some key →
      ∃ r, factCheckWithGemini env text = .ok r ∧ 1 ≤ r.sources.length) ∧
    (∀ data : JsonValue, (validateResponse data).sources.length ≤ 5) := by
  constructor
  · intro env text key hk
    unfold factCheckWithGemini
    rw [hk]
    cases env.geminiFailure with
    | some msg =>
      refine ⟨geminiCatchFallback text msg, rfl, ?_⟩
      unfold geminiCatchFallback
      simp
    | none =>
      refine ⟨validateGemini text env.geminiParsed env.geminiRaw, rfl, ?_⟩
      unfold validateGemini
      cases hget : jget env.geminiParsed "sources" with
      | none => simp
      | some v =>
        cases v with
        | arr xs =>
          by_cases hlen : xs.length = 0
          · simp [hlen]
          · simp only [hlen, if_false]
            omega
        | null => simp
        | bool b => simp
        | num q => simp
        | str s => simp
        | obj fs => simp
  · intro data
    unfold validateResponse
    cases hget : jget data "sources" with
    | none => simp
    | some v =>
      cases v with
      | arr xs => simp [List.length_take]
      | null => simp
      | bool b => simp
      | num q => simp
      | str s => simp
      | obj fs => simp

/-- Witness for C8: the amended theorem applied at a concrete environment. -/
theorem claim8_witness :
    (factCheckWithGemini envCallOk sampleText).toOption.map
      (fun r => decide (1 ≤ r.sources.length)) = some true := by
  obtain ⟨r, hr, hlen⟩ := claim8_sources_bounds.1 envCallOk sampleText "chave-de-teste" rfl
  rw [hr]
  simp only [Except.toOption, Option.map_some', Option.some_inj, decide_eq_true_eq]
  exact hlen

/-- `factCheckWithGemini` does not read the insert outcome. -/
theorem factCheck_setInsertFails (env : ExtEnv) (b : Bool) (text : String) :
    factCheckWithGemini
      ⟨env.apiKey, env.geminiFailure, env.geminiParsed, env.geminiRaw, env.fetchFails, b⟩ text
      = factCheckWithGemini env text := rfl

/-- C4: submitting the same text twice in succession (no store failures, key
present, initial cache miss) yields on the second call a verdict flagged
`cached := true` whose status, confidence, justification and sources are
identical to the first call's freshly computed verdict (`cached := false`). -/
theorem claim4_cache_idempotence
    (st : List CacheRow) (env1 env2 : ExtEnv)
    (client1 client2 : String) (t1 t2 : Nat) (s key : String)
    (hs : s ≠ "") (htr : jsTrim s ≠ "")
    (hfetch1 : env1.fetchFails = false)
    (hmiss : lookupStore st (hashText (jsTrim s)) = none)
    (hkey : env1.apiKey = some key)
    (hins : env1.insertFails = false)
    (hfetch2 : env2.fetchFails = false) :
    ∃ v1 v2 : VerdictOut,
      (handleRequest st env1 (mkReq client1 t1 s)).1 = ⟨200, .verdict v1⟩ ∧
      (handleRequest (handleRequest st env1 (mkReq client1 t1 s)).2 env2 (mkReq client2 t2 s)).1
        = ⟨200, .verdict v2⟩ ∧
      v1.cached = false ∧ v2.cached = true ∧
      v2.status = v1.status ∧ v2.confidence = v1.confidence ∧
      v2.justification = v1.justification ∧ v2.sources = v1.sources := by
  obtain ⟨r, hr⟩ : ∃ r, factCheckWithGemini env1 (jsTrim s) = .ok r := by
    unfold factCheckWithGemini
    rw [hkey]
    cases env1.geminiFailure <;> exact ⟨_, rfl⟩
  have hj : jget (JsonValue.obj [("text", JsonValue.str s)]) "text" = some (JsonValue.str s) := by
    simp [jget, List.find?]
  have step1 : handleRequest st env1 (mkReq client1 t1 s)
      = (⟨200, .verdict ⟨r.status, r.confidence, r.justification, r.sources, false⟩⟩,
         st ++ [⟨jsTrim s, hashText (jsTrim s), r.status, r.confidence, r.justification, r.sources⟩]) := by
    unfold handleRequest mkReq
    dsimp only
    simp only [hj]
    rw [if_neg (by simp [hs, htr])]
    rw [hfetch1, if_neg (by simp)]
    rw [hmiss, hr, hins]
    rfl
  have hlookup2 : lookupStore
      (st ++ [⟨jsTrim s, hashText (jsTrim s), r.status, r.confidence, r.justification, r.sources⟩])
      (hashText (jsTrim s)) = some ⟨jsTrim s, hashText (jsTrim s), r.status, r.confidence, r.justification, r.sources⟩ := by
    unfold lookupStore
    rw [List.find?_append]
    unfold lookupStore at hmiss
    rw [hmiss]
    simp [List.find?]
  have step2 : (handleRequest
      (st ++ [⟨jsTrim s, hashText (jsTrim s), r.status, r.confidence, r.justification, r.sources⟩])
      env2 (mkReq client2 t2 s)).1
      = ⟨200, .verdict ⟨r.status, r.confidence, r.justification, r.sources, true⟩⟩ := by
    unfold handleRequest mkReq
    dsimp only
    simp only [hj]
    rw [if_neg (by simp [hs, htr])]
    rw [hfetch2, if_neg (by simp)]
    rw [hlookup2]
  refine ⟨⟨r.status, r.confidence, r.justification, r.sources, false⟩,
    ⟨r.status, r.confidence, r.justification, r.sources, true⟩, ?_, ?_, rfl, rfl, rfl, rfl, rfl, rfl⟩
  · rw [step1]
  · rw [step1]
    exact step2

/-- Witness for C4: two identical requests in succession against an empty
store; the second response is cache-flagged. -/
theorem claim4_witness :
    respCached (handleRequest
      (handleRequest [] envCallOk (mkReq "cliente-a" 0 sampleText)).2
      envCallOk (mkReq "cliente-b" 5000 sampleText)).1 = some true := by
  obtain ⟨v1, v2, h1, h2, hc1, hc2, -, -, -, -⟩ :=
    claim4_cache_idempotence [] envCallOk envCallOk "cliente-a" "cliente-b" 0 5000 sampleText
      "chave-de-teste" (by decide) (by decide) rfl rfl rfl rfl rfl
  rw [h2]
  simp [respCached, hc2]

/-- C9: a failure of the cache insert is swallowed. The response is
completely independent of the insert outcome, and on the fresh-computation
path with a failing insert the handler still answers 200 with the
just-computed verdict (`cached := false`) while the store is left unchanged. -/
theorem claim9_insert_failure_swallowed :
    (∀ (st : List CacheRow) (env : ExtEnv) (req : Request) (b1 b2 : Bool),
      (handleRequest st (setInsertFails env b1) req).1
        = (handleRequest st (setInsertFails env b2) req).1) ∧
    (∀ (st : List CacheRow) (env : ExtEnv) (client : String) (t : Nat) (s key : String),
      s ≠ "" → jsTrim s ≠ "" → env.fetchFails = false →
      lookupStore st (hashText (jsTrim s)) = none →
      env.apiKey = some key → env.insertFails = true →
      ∃ r, factCheckWithGemini env (jsTrim s) = .ok r ∧
        (handleRequest st env (mkReq client t s)).1
          = ⟨200, .verdict ⟨r.status, r.confidence, r.justification, r.sources, false⟩⟩ ∧
        (handleRequest st env (mkReq client t s)).2 = st) := by
  constructor
  · intro st env req b1 b2
    unfold handleRequest
    simp only [setInsertFails, factCheck_setInsertFails]
    repeat' split
    all_goals dsimp only
    all_goals simp_all
  · intro st env client t s key hs htr hfetch hmiss hkey hins
    obtain ⟨r, hr⟩ : ∃ r, factCheckWithGemini env (jsTrim s) = .ok r := by
      unfold factCheckWithGemini
      rw [hkey]
      cases env.geminiFailure <;> exact ⟨_, rfl⟩
    have hj : jget (JsonValue.obj [("text", JsonValue.str s)]) "text" = some (JsonValue.str s) := by
      simp [jget, List.find?]
    have step : handleRequest st env (mkReq client t s)
        = (⟨200, .verdict ⟨r.status, r.confidence, r.justification, r.sources, false⟩⟩, st) := by
      unfold handleRequest mkReq
      dsimp only
      simp only [hj]
      rw [if_neg (by simp [hs, htr])]
      rw [hfetch, if_neg (by simp)]
      rw [hmiss, hr, hins]
      rfl
    exact ⟨r, hr, by rw [step], by rw [step]⟩

/-- Witness for C9: a concrete run on the fresh-computation path with
`insertFails = true` answers with a fresh verdict and leaves the store
unchanged. -/
theorem claim9_witness :
    respCached (handleRequest [] (setInsertFails envCallOk true) (mkReq "cliente" 0 sampleText)).1
      = some false ∧
    (handleRequest [] (setInsertFails envCallOk true) (mkReq "cliente" 0 sampleText)).2 = [] := by
  obtain ⟨r, hr, hresp, hstore⟩ :=
    claim9_insert_failure_swallowed.2 [] (setInsertFails envCallOk true) "cliente" 0 sampleText
      "chave-de-teste" (by decide) (by decide) rfl rfl rfl rfl
  exact ⟨by rw [hresp]; rfl, hstore⟩

/-- C10: for every payload received from the fact-check endpoint, however
malformed, the client-side response processing produces a well-formed result:
status in the enumeration, confidence in [0, 100], justification of at most
1000 characters, and at most 5 sources. -/
theorem claim10_client_validation_wellformed (cleanText : String) (data : JsonValue) :
    ((clientProcess cleanText data).status = "real" ∨
      (clientProcess cleanText data).status = "fake" ∨
      (clientProcess cleanText data).status = "uncertain") ∧
    0 ≤ (clientProcess cleanText data).confidence ∧
    (clientProcess cleanText data).confidence ≤ 100 ∧
    (clientProcess cleanText data).justification.length ≤ 1000 ∧
    (clientProcess cleanText data).sources.length ≤ 5 := by
  unfold clientProcess
  by_cases hf : jsonFalsy data = true
  · simp only [hf, if_true]
    unfold clientCatchFallback
    refine ⟨Or.inr (Or.inr rfl), ?_, ?_, ?_, ?_⟩
    · dsimp only; decide
    · dsimp only; decide
    · dsimp only; decide
    · dsimp only; simp
  · simp only [Bool.not_eq_true] at hf
    simp only [hf, Bool.false_eq_true, if_false]
    unfold validateResponse
    refine ⟨?_, ?_, ?_, ?_, ?_⟩
    · cases hget : jget data "status" with
      | none => right; right; rfl
      | some v =>
        cases v with
        | str sv =>
          dsimp only
          by_cases hin : (sv = "real" || sv = "fake" || sv = "uncertain") = true
          · rw [if_pos hin]
            rcases Bool.or_eq_true _ _ |>.mp hin with h1 | h1
            · rcases Bool.or_eq_true _ _ |>.mp h1 with h2 | h2
              · left; exact of_decide_eq_true h2
              · right; left; exact of_decide_eq_true h2
            · right; right; exact of_decide_eq_true h1
          · rw [if_neg hin]; right; right; rfl
        | null => right; right; rfl
        | bool b => right; right; rfl
        | num q => right; right; rfl
        | arr xs => right; right; rfl
        | obj fs => right; right; rfl
    · cases hget : jget data "confidence" with
      | none => dsimp only; decide
      | some v =>
        cases v with
        | num q =>
          dsimp only
          by_cases hin : (decide (0 ≤ q) && decide (q ≤ 100)) = true
          · rw [if_pos hin]
            exact of_decide_eq_true (Bool.and_eq_true _ _ |>.mp hin).1
          · rw [if_neg hin]; decide
        | null => dsimp only; decide
        | bool b => dsimp only; decide
        | str sv => dsimp only; decide
        | arr xs => dsimp only; decide
        | obj fs => dsimp only; decide
    · cases hget : jget data "confidence" with
      | none => dsimp only; decide
      | some v =>
        cases v with
        | num q =>
          dsimp only
          by_cases hin : (decide (0 ≤ q) && decide (q ≤ 100)) = true
          · rw [if_pos hin]
            exact of_decide_eq_true (Bool.and_eq_true _ _ |>.mp hin).2
          · rw [if_neg hin]; decide
        | null => dsimp only; decide
        | bool b => dsimp only; decide
        | str sv => dsimp only; decide
        | arr xs => dsimp only; decide
        | obj fs => dsimp only; decide
    · cases hget : jget data "justification" with
      | none => dsimp only; decide
      | some v =>
        cases v with
        | str sv =>
          show (jsSubstring sv 1000).length ≤ 1000
          unfold jsSubstring
          show (sv.data.take 1000).length ≤ 1000
          rw [List.length_take]
          omega
        | null => dsimp only; decide
        | bool b => dsimp only; decide
        | num q => dsimp only; decide
        | arr xs => dsimp only; decide
        | obj fs => dsimp only; decide
    · cases hget : jget data "sources" with
      | none => dsimp only; decide
      | some v =>
        cases v with
        | arr xs =>
          show (xs.take 5).length ≤ 5
          rw [List.length_take]
          omega
        | null => dsimp only; decide
        | bool b => dsimp only; decide
        | num q => dsimp only; decide
        | str sv => dsimp only; decide
        | obj fs => dsimp only; decide

end FakeNews
